import Mathlib

/-!
Verification of the Sudoku puzzle-generation core of this repository
(`sudoku_generator.py`, class `SudokuGenerator`), as a shallow embedding.

Modelling conventions:

* A grid is a list of rows of naturals (`Grid := List (List ℕ)`), `0`
  denoting an empty cell.  Python's `grid[r][c]` reads are embedded by
  `getCell` via `List.getD` (in all executions reached by the source the
  indices are in range, so the default is never observed), and the in-place
  assignment `grid[r][c] = v` by the functional update `setCell`.

* The CPython global random generator is modelled as an infinite stream of
  naturals `σ : ℕ → ℕ` together with a cursor `k : ℕ` threaded through every
  function that draws randomness, mirroring the shared mutable state of the
  `random` module: each primitive draw reads `σ k` and advances the cursor.
  `random.randint a b` is embedded as `a + σ k % (b - a + 1)`;
  `random.shuffle` is the Fisher–Yates loop of CPython
  (`for i in reversed(range(1, len(x))): j = randbelow(i+1); swap x[i] x[j]`)
  with `randbelow n` embedded as `σ k % n`.  Every possible behaviour of the
  real generator is a choice of `σ`.

* The recursive backtracking of `_solve_grid` and the `while` loop of
  `create_puzzle` are embedded with an explicit fuel parameter returning
  `Option` (`none` = fuel exhausted).  For `_solve_grid` a fuel of 82 is
  provably sufficient on every 9×9 grid; the removal loop of `create_puzzle`
  genuinely admits random streams on which it never terminates, which the
  fuel makes expressible.
-/

namespace Sudoku

abbrev Grid := List (List ℕ)

abbrev Rng := ℕ → ℕ

/-- Field `self.grid_size` of `SudokuGenerator.__init__`. -/
def gridSize : ℕ := 9

/-- Field `self.box_size` of `SudokuGenerator.__init__`. -/
def boxSize : ℕ := 3

/-- Read `grid[r][c]`; out-of-range reads give the (never observed) default 0. -/
def getCell (g : Grid) (r c : ℕ) : ℕ := (g.getD r []).getD c 0

/-- Write `grid[r][c] = v` functionally. -/
def setCell (g : Grid) (r c v : ℕ) : Grid := g.set r ((g.getD r []).set c v)

/-- Embedding of `random.randint(a, b)` (both ends inclusive): one draw from the stream. -/
def randint (σ : Rng) (a b k : ℕ) : ℕ × ℕ := (a + σ k % (b - a + 1), k + 1)

/-- One Fisher–Yates swap `x[i], x[j] = x[j], x[i]`. -/
def swapAt (l : List ℕ) (i j : ℕ) : List ℕ :=
  (l.set i (l.getD j 0)).set j (l.getD i 0)

/-- The Fisher–Yates loop of `random.shuffle`: `fyGo σ i l k` performs the
swaps for positions `i, i-1, ..., 1`, drawing one stream value each. -/
def fyGo (σ : Rng) : ℕ → List ℕ → ℕ → List ℕ × ℕ
  | 0, l, k => (l, k)
  | i + 1, l, k => fyGo σ i (swapAt l (i + 1) (σ k % (i + 2))) (k + 1)

/-- Embedding of `random.shuffle(l)`. -/
def shuffleList (σ : Rng) (l : List ℕ) (k : ℕ) : List ℕ × ℕ :=
  fyGo σ (l.length - 1) l k

/-- The list `list(range(1, 10))`. -/
def oneToNine : List ℕ := [1, 2, 3, 4, 5, 6, 7, 8, 9]

/-- Embedding of `_fill_box`: shuffle 1..9 and write the nine values into the 3×3 box at
`(row, col)` in row-major order (`grid[row+i][col+j] = numbers[i*3+j]`). -/
def fillBox (σ : Rng) (g : Grid) (row col k : ℕ) : Grid × ℕ :=
  let res := shuffleList σ oneToNine k
  ((List.range boxSize).foldl (fun acc i =>
      (List.range boxSize).foldl (fun acc2 j =>
        setCell acc2 (row + i) (col + j) (res.1.getD (i * boxSize + j) 0)) acc) g,
   res.2)

/-- The column `[grid[i][col] for i in range(9)]`. -/
def colVals (g : Grid) (c : ℕ) : List ℕ :=
  (List.range gridSize).map fun i => getCell g i c

/-- The nine cells of the 3×3 box whose top-left corner is `(br, bc)`. -/
def boxVals (g : Grid) (br bc : ℕ) : List ℕ :=
  (List.range boxSize).flatMap fun i =>
    (List.range boxSize).map fun j => getCell g (br + i) (bc + j)

/-- Embedding of `_is_valid`: true when `num` clashes with no entry of its row, column or box. -/
def isValidCell (g : Grid) (row col num : ℕ) : Bool :=
  !((g.getD row []).contains num)
  && !((colVals g col).contains num)
  && !((boxVals g (row / boxSize * boxSize) (col / boxSize * boxSize)).contains num)

/-- The row-major scan of `_solve_grid` for the first empty cell. -/
def findEmpty (g : Grid) : Option (ℕ × ℕ) :=
  (List.range gridSize).findSome? fun r =>
    ((List.range gridSize).find? fun c => getCell g r c == 0).map fun c => (r, c)

/-- The candidate loop of `_solve_grid` (`for num in numbers: ...`): try each
shuffled candidate at the empty cell `(r, c)`; on a failed sub-search the cell
is restored (functionally: the original `g` is reused). -/
def tryNums (solveRec : Grid → ℕ → Option (Bool × Grid × ℕ)) (g : Grid) (r c : ℕ) :
    List ℕ → ℕ → Option (Bool × Grid × ℕ)
  | [], k => some (false, g, k)
  | n :: ns, k =>
    if isValidCell g r c n then
      match solveRec (setCell g r c n) k with
      | none => none
      | some (true, g2, k2) => some (true, g2, k2)
      | some (false, _, k2) => tryNums solveRec g r c ns k2
    else
      tryNums solveRec g r c ns k

/-- Embedding of `_solve_grid` with explicit fuel bounding the recursion depth
(`none` = fuel exhausted). -/
def solveFuel (σ : Rng) : ℕ → Grid → ℕ → Option (Bool × Grid × ℕ)
  | 0, _, _ => none
  | f + 1, g, k =>
    match findEmpty g with
    | none => some (true, g, k)
    | some (r, c) =>
      let res := shuffleList σ oneToNine k
      tryNums (solveFuel σ f) g r c res.1 res.2

/-- Wrapper for `_solve_grid` as called by the source: fuel 82 exceeds the recursion
depth on every 9×9 grid (proved below), so the fallback arm is dead code. -/
def solveGrid (σ : Rng) (g : Grid) (k : ℕ) : Bool × Grid × ℕ :=
  match solveFuel σ 82 g k with
  | some res => res
  | none => (false, g, k)

/-- The all-zero starting grid of `generate_complete_grid`. -/
def emptyGrid : Grid := List.replicate gridSize (List.replicate gridSize 0)

/-- Embedding of `generate_complete_grid`: fill the three diagonal boxes, then run the
backtracking solver, ignoring its success flag (as the source does). -/
def generateCompleteGrid (σ : Rng) (k : ℕ) : Grid × ℕ :=
  let r1 := fillBox σ emptyGrid 0 0 k
  let r2 := fillBox σ r1.1 3 3 r1.2
  let r3 := fillBox σ r2.1 6 6 r2.2
  let r4 := solveGrid σ r3.1 r3.2
  (r4.2.1, r4.2.2)

/-- Embedding of `_has_unique_solution`: the source's stub, returning `True` for every
grid ("For performance, we'll skip this check in production"). -/
def hasUniqueSolution (_puzzle : Grid) : Bool := true

/-- The `difficulty_map` dictionary of `create_puzzle`. -/
def difficultyMap (d : String) : Option (ℕ × ℕ) :=
  if d = "easy" then some (35, 40)
  else if d = "medium" then some (45, 50)
  else if d = "hard" then some (55, 60)
  else if d = "complex" then some (55, 60)
  else none

/-- The cell-removal `while` loop of `create_puzzle`, with fuel (each loop
iteration costs one unit; `none` = fuel exhausted with the loop condition
still true).  `attempts` is only incremented when a non-zero cell is hit,
exactly as in the source. -/
def removeLoop (σ : Rng) : ℕ → Grid → ℕ → ℕ → ℕ → ℕ → Option (Grid × ℕ)
  | 0, p, removed, attempts, target, k =>
    if removed < target && attempts < 100 then none else some (p, k)
  | f + 1, p, removed, attempts, target, k =>
    if removed < target && attempts < 100 then
      let rr := randint σ 0 (gridSize - 1) k
      let rc := randint σ 0 (gridSize - 1) rr.2
      if getCell p rr.1 rc.1 != 0 then
        let backup := getCell p rr.1 rc.1
        let p1 := setCell p rr.1 rc.1 0
        if hasUniqueSolution p1 then
          removeLoop σ f p1 (removed + 1) (attempts + 1) target rc.2
        else
          removeLoop σ f (setCell p1 rr.1 rc.1 backup) removed (attempts + 1) target rc.2
      else
        removeLoop σ f p removed attempts target rc.2
    else
      some (p, k)

/-- Embedding of `create_puzzle`: resolve the difficulty (unknown tokens fall back to
`'medium'`), draw the removal target, generate a complete solution, and run
the removal loop on a copy of it. -/
def createPuzzle (σ : Rng) (difficulty : String) (fuel k : ℕ) :
    Option (Grid × Grid × ℕ) :=
  let d := if (difficultyMap difficulty).isSome then difficulty else "medium"
  let lohi := (difficultyMap d).getD (0, 0)
  let rt := randint σ lohi.1 lohi.2 k
  let rs := generateCompleteGrid σ rt.2
  (removeLoop σ fuel rs.1 0 0 rt.1 rs.2).map fun pk => (pk.1, rs.1, pk.2)

/-- Embedding of `validate_solution`: clue fidelity, then `len(set(...)) == 9` for every
row, column and 3×3 box of the candidate. -/
def validateSolution (puzzle solution : Grid) : Bool :=
  ((List.range gridSize).all fun i =>
    (List.range gridSize).all fun j =>
      !(getCell puzzle i j != 0 && getCell puzzle i j != getCell solution i j))
  && ((List.range gridSize).all fun i =>
        ((solution.getD i []).dedup.length == gridSize)
        && ((colVals solution i).dedup.length == gridSize))
  && (([0, 3, 6] : List ℕ).all fun br =>
        ([0, 3, 6] : List ℕ).all fun bc =>
          ((boxVals solution br bc).dedup.length == gridSize))

/-! ### Specification-side predicates

These follow the wording of the specification ("each row, column, and box is
a permutation of `{1..9}`", "admits exactly one completion", clue fidelity),
to be compared with the behaviour of the embedded source functions. -/

/-- A list is a permutation of `{1..9}` (spec wording). -/
def IsPerm19 (l : List ℕ) : Prop := l.Perm oneToNine

/-- Spec: every row, column and 3×3 box of `s` is a permutation of `{1..9}`. -/
def IsSudokuSolution (s : Grid) : Prop :=
  (∀ i ∈ List.range gridSize, IsPerm19 (s.getD i []) ∧ IsPerm19 (colVals s i))
  ∧ ∀ br ∈ ([0, 3, 6] : List ℕ), ∀ bc ∈ ([0, 3, 6] : List ℕ),
      IsPerm19 (boxVals s br bc)

/-- Spec: `s` is a completion of the puzzle `p`: it agrees with every clue
(non-zero cell) of `p` and is a full valid Sudoku solution. -/
def IsCompletionOf (p s : Grid) : Prop :=
  (∀ i ∈ List.range gridSize, ∀ j ∈ List.range gridSize,
      getCell p i j ≠ 0 → getCell s i j = getCell p i j)
  ∧ IsSudokuSolution s

/-- Spec ("PuzzleValidator" amended): every non-zero cell of `p` matches `s`. -/
def CluesMatch (p s : Grid) : Prop :=
  ∀ i < gridSize, ∀ j < gridSize, getCell p i j ≠ 0 → getCell p i j = getCell s i j

/-- What `validate_solution` actually checks beyond clue fidelity: each row,
column and box of the candidate consists of pairwise distinct values (no
range check into `{1..9}`). -/
def AllUnitsDistinct (s : Grid) : Prop :=
  (∀ i < gridSize, (s.getD i []).Nodup ∧ (colVals s i).Nodup)
  ∧ ∀ br ∈ ([0, 3, 6] : List ℕ), ∀ bc ∈ ([0, 3, 6] : List ℕ),
      (boxVals s br bc).Nodup

instance (l : List ℕ) : Decidable (IsPerm19 l) :=
  inferInstanceAs (Decidable (l.Perm oneToNine))

instance (s : Grid) : Decidable (IsSudokuSolution s) :=
  inferInstanceAs (Decidable (_ ∧ _))

instance (p s : Grid) : Decidable (IsCompletionOf p s) :=
  inferInstanceAs (Decidable (_ ∧ _))

instance (p s : Grid) : Decidable (CluesMatch p s) :=
  inferInstanceAs (Decidable (∀ i < gridSize, ∀ j < gridSize, _ → _))

instance (s : Grid) : Decidable (AllUnitsDistinct s) :=
  inferInstanceAs (Decidable (_ ∧ _))

/-- Number of empty cells in the 9×9 window. -/
def cellIdxs : List (ℕ × ℕ) :=
  (List.range gridSize).flatMap fun r => (List.range gridSize).map fun c => (r, c)

def numZeros (g : Grid) : ℕ :=
  (cellIdxs.filter fun rc => getCell g rc.1 rc.2 == 0).length

/-- The 9×9 window of the grid is backed by real list entries (all rows and
cells up to index 8 exist). -/
def InBounds (g : Grid) : Prop :=
  gridSize ≤ g.length ∧ ∀ r < gridSize, gridSize ≤ (g.getD r []).length

instance (g : Grid) : Decidable (InBounds g) :=
  inferInstanceAs (Decidable (_ ∧ _))

/-! ### Concrete data

A fully explicit random stream `sigma3` under which every step of
`create_puzzle('medium')` is computable: the three diagonal boxes are filled
with the identity permutation, the backtracking solver is steered so that its
first candidate at every cell is the correct one (no backtracking), and the
removal loop hits 45 distinct cells.  `chunk d` is the block of eight
`randbelow` draws that makes the CPython Fisher–Yates shuffle of
`[1,...,9]` put `d` in front (`chunk 1` is the identity shuffle). -/

def chunk : ℕ → List ℕ
  | 2 => [8, 7, 6, 5, 4, 3, 2, 0]
  | 3 => [8, 7, 6, 5, 4, 3, 0, 1]
  | 4 => [8, 7, 6, 5, 4, 0, 2, 1]
  | 5 => [8, 7, 6, 5, 0, 3, 2, 1]
  | 6 => [8, 7, 6, 0, 4, 3, 2, 1]
  | 7 => [8, 7, 0, 5, 4, 3, 2, 1]
  | 8 => [8, 0, 6, 5, 4, 3, 2, 1]
  | 9 => [0, 7, 6, 5, 4, 3, 2, 1]
  | _ => [8, 7, 6, 5, 4, 3, 2, 1]

/-- The digits of the target solution `gridG` at the 54 off-diagonal-box
cells, in the row-major order in which `_solve_grid` visits them. -/
def solveDigits : List ℕ :=
  [6, 4, 5, 8, 9, 7,   9, 7, 8, 2, 3, 1,   3, 1, 2, 5, 6, 4,
   8, 9, 7, 6, 4, 5,   2, 3, 1, 9, 7, 8,   5, 6, 4, 3, 1, 2,
   6, 4, 5, 8, 9, 7,   9, 7, 8, 2, 3, 1,   3, 1, 2, 5, 6, 4]

/-- The 45 cells cleared by the removal loop of the `sigma3` run
(row, column pairs, flattened). -/
def removalDraws : List ℕ :=
  [0, 0, 0, 1, 0, 2,  4, 0, 4, 1, 4, 2,  1, 0, 1, 1, 1, 2]
  ++ ((List.range gridSize).flatMap fun c => [5, c])
  ++ ((List.range gridSize).flatMap fun c => [6, c])
  ++ ((List.range gridSize).flatMap fun c => [7, c])
  ++ ((List.range gridSize).flatMap fun c => [8, c])

def sigma3List : List ℕ :=
  [0] ++ chunk 1 ++ chunk 1 ++ chunk 1 ++ solveDigits.flatMap chunk ++ removalDraws

/-- The concrete random stream: the draws of `sigma3List`, then zeros. -/
def sigma3 : Rng := fun i => sigma3List.getD i 0

/-- The complete grid produced by `generate_complete_grid` under `sigma3`. -/
def gridG : Grid :=
  [[1, 2, 3, 6, 4, 5, 8, 9, 7],
   [4, 5, 6, 9, 7, 8, 2, 3, 1],
   [7, 8, 9, 3, 1, 2, 5, 6, 4],
   [8, 9, 7, 1, 2, 3, 6, 4, 5],
   [2, 3, 1, 4, 5, 6, 9, 7, 8],
   [5, 6, 4, 7, 8, 9, 3, 1, 2],
   [6, 4, 5, 8, 9, 7, 1, 2, 3],
   [9, 7, 8, 2, 3, 1, 4, 5, 6],
   [3, 1, 2, 5, 6, 4, 7, 8, 9]]

/-- A second complete grid: `gridG` with the triples at rows 0 and 4,
columns 0–2 exchanged; also a valid full solution. -/
def gridG2 : Grid :=
  [[2, 3, 1, 6, 4, 5, 8, 9, 7],
   [4, 5, 6, 9, 7, 8, 2, 3, 1],
   [7, 8, 9, 3, 1, 2, 5, 6, 4],
   [8, 9, 7, 1, 2, 3, 6, 4, 5],
   [1, 2, 3, 4, 5, 6, 9, 7, 8],
   [5, 6, 4, 7, 8, 9, 3, 1, 2],
   [6, 4, 5, 8, 9, 7, 1, 2, 3],
   [9, 7, 8, 2, 3, 1, 4, 5, 6],
   [3, 1, 2, 5, 6, 4, 7, 8, 9]]

/-- The puzzle produced by `create_puzzle('medium')` under `sigma3`:
`gridG` with the 45 cells of `removalDraws` cleared. -/
def puzzleP : Grid :=
  [[0, 0, 0, 6, 4, 5, 8, 9, 7],
   [0, 0, 0, 9, 7, 8, 2, 3, 1],
   [7, 8, 9, 3, 1, 2, 5, 6, 4],
   [8, 9, 7, 1, 2, 3, 6, 4, 5],
   [0, 0, 0, 4, 5, 6, 9, 7, 8],
   [0, 0, 0, 0, 0, 0, 0, 0, 0],
   [0, 0, 0, 0, 0, 0, 0, 0, 0],
   [0, 0, 0, 0, 0, 0, 0, 0, 0],
   [0, 0, 0, 0, 0, 0, 0, 0, 0]]

/-- The candidate of the validator counterexamples: `gridG` with every cell
shifted by 9 — all units distinct, no value in `{1..9}`. -/
def bigGrid : Grid := gridG.map fun row => row.map fun v => v + 9

/-- The everywhere-zero random stream (every `randint`/`randbelow` draw 0). -/
def sigma0 : Rng := fun _ => 0

/-- A stream agreeing with `sigma3` on the consumed prefix but not beyond. -/
def sigma3alt : Rng := fun i => sigma3List.getD i 99

/-! ### Basic list and cell lemmas -/

theorem getD_set_self {α : Type} (l : List α) (d : α) :
    ∀ (i : ℕ) (v : α), i < l.length → (l.set i v).getD i d = v := by
  induction l with
  | nil => intro i v h; simp at h
  | cons a l ih =>
    intro i v h
    cases i with
    | zero => rfl
    | succ i => exact ih i v (by simpa using h)

theorem getD_set_ne {α : Type} (l : List α) (d : α) (v : α) :
    ∀ {i j : ℕ}, i ≠ j → (l.set i v).getD j d = l.getD j d := by
  induction l with
  | nil => intro i j _; rfl
  | cons a l ih =>
    intro i j h
    cases i with
    | zero =>
      cases j with
      | zero => exact absurd rfl h
      | succ j => rfl
    | succ i =>
      cases j with
      | zero => rfl
      | succ j => exact ih fun e => h (by rw [e])

theorem getD_irrel {α : Type} (l : List α) (i : ℕ) (a b : α) (h : i < l.length) :
    l.getD i a = l.getD i b := by
  rw [List.getD_eq_getElem _ _ h, List.getD_eq_getElem _ _ h]

theorem lt_length_of_getD_ne_default {α : Type} (l : List α) (d : α) (i : ℕ)
    (h : l.getD i d ≠ d) : i < l.length := by
  by_contra hc
  exact h (List.getD_eq_default _ _ (Nat.le_of_not_lt hc))

theorem length_setCell (g : Grid) (r c v : ℕ) :
    (setCell g r c v).length = g.length := List.length_set ..

theorem rowLen_setCell (g : Grid) (r c v r' : ℕ) :
    ((setCell g r c v).getD r' []).length = (g.getD r' []).length := by
  unfold setCell
  by_cases hr : r = r'
  · subst hr
    by_cases hl : r < g.length
    · rw [getD_set_self g [] r _ hl, List.length_set]
    · rw [List.set_eq_of_length_le (Nat.le_of_not_lt hl)]
  · rw [getD_set_ne g [] _ hr]

theorem getCell_setCell_ne (g : Grid) (r c v r' c' : ℕ) (h : ¬(r' = r ∧ c' = c)) :
    getCell (setCell g r c v) r' c' = getCell g r' c' := by
  unfold getCell setCell
  by_cases hr : r = r'
  · subst hr
    have hc : c ≠ c' := fun e => h ⟨rfl, e.symm⟩
    by_cases hl : r < g.length
    · rw [getD_set_self g [] r _ hl, getD_set_ne _ 0 _ hc]
    · rw [List.set_eq_of_length_le (Nat.le_of_not_lt hl)]
  · rw [getD_set_ne g [] _ hr]

theorem getCell_setCell_self (g : Grid) (r c v : ℕ)
    (hr : r < g.length) (hc : c < (g.getD r []).length) :
    getCell (setCell g r c v) r c = v := by
  unfold getCell setCell
  rw [getD_set_self g [] r _ hr, getD_set_self _ 0 c v hc]

theorem getCell_setCell_self_of_ne (g : Grid) (r c v : ℕ) (h : getCell g r c ≠ 0) :
    getCell (setCell g r c v) r c = v := by
  have hc : c < (g.getD r []).length := lt_length_of_getD_ne_default _ 0 c h
  have hrow : g.getD r [] ≠ [] := by
    intro e; rw [e] at hc; simp at hc
  have hr : r < g.length := by
    by_contra hl
    exact hrow (List.getD_eq_default _ _ (Nat.le_of_not_lt hl))
  exact getCell_setCell_self g r c v hr hc

theorem getCell_setCell_or (g : Grid) (r c v : ℕ) :
    getCell (setCell g r c v) r c = v ∨ getCell (setCell g r c v) r c = getCell g r c := by
  by_cases hr : r < g.length
  · by_cases hc : c < (g.getD r []).length
    · exact Or.inl (getCell_setCell_self g r c v hr hc)
    · right
      unfold getCell setCell
      rw [getD_set_self g [] r _ hr, List.set_eq_of_length_le (Nat.le_of_not_lt hc)]
  · right
    unfold getCell setCell
    rw [List.set_eq_of_length_le (Nat.le_of_not_lt hr)]

/-! ### Counting empty cells -/

theorem cellIdxs_nodup : cellIdxs.Nodup := by decide

theorem mem_cellIdxs {r c : ℕ} : (r, c) ∈ cellIdxs ↔ r < gridSize ∧ c < gridSize := by
  simp [cellIdxs, List.mem_flatMap]

/-- If two Boolean predicates agree everywhere on a duplicate-free list except
possibly at one member `x`, their filter counts differ exactly by the two
values at `x`. -/
theorem filter_length_update {α : Type} (p q : α → Bool) (x : α) :
    ∀ l : List α, l.Nodup → x ∈ l → (∀ y ∈ l, y ≠ x → q y = p y) →
      (l.filter q).length + (if p x then 1 else 0)
        = (l.filter p).length + (if q x then 1 else 0) := by
  intro l
  induction l with
  | nil => intro _ h; simp at h
  | cons a l ih =>
    intro hnd hmem hcong
    have hnd' : l.Nodup := (List.nodup_cons.mp hnd).2
    have hna : a ∉ l := (List.nodup_cons.mp hnd).1
    rcases List.mem_cons.mp hmem with hax | hxl
    · subst hax
      have hfl : l.filter q = l.filter p :=
        List.filter_congr fun y hy => hcong y (List.mem_cons_of_mem _ hy)
          (fun e => hna (e ▸ hy))
      rw [List.filter_cons, List.filter_cons, hfl]
      cases hp : p x <;> cases hq : q x <;> (simp [hp, hq]; try omega)
    · have hax : a ≠ x := fun e => hna (e ▸ hxl)
      have hqa : q a = p a := hcong a (List.mem_cons_self a l) hax
      have hrec := ih hnd' hxl fun y hy hyx => hcong y (List.mem_cons_of_mem _ hy) hyx
      rw [List.filter_cons, List.filter_cons, hqa]
      cases hp : p a <;> (simp [hp]; try omega)

theorem numZeros_le (g : Grid) : numZeros g ≤ 81 := by
  have := List.length_filter_le (fun rc : ℕ × ℕ => getCell g rc.1 rc.2 == 0) cellIdxs
  simpa [numZeros] using this

theorem numZeros_succ_of_remove (g : Grid) (r c : ℕ) (h : getCell g r c ≠ 0)
    (hr : r < gridSize) (hc : c < gridSize) :
    numZeros (setCell g r c 0) = numZeros g + 1 := by
  have hmem : (r, c) ∈ cellIdxs := mem_cellIdxs.mpr ⟨hr, hc⟩
  have hcong : ∀ y ∈ cellIdxs, y ≠ (r, c) →
      (getCell (setCell g r c 0) y.1 y.2 == 0) = (getCell g y.1 y.2 == 0) := by
    intro y _ hy
    rw [getCell_setCell_ne g r c 0 y.1 y.2 (fun hrc => hy (Prod.ext hrc.1 hrc.2))]
  have key := filter_length_update (fun rc : ℕ × ℕ => getCell g rc.1 rc.2 == 0)
    (fun rc : ℕ × ℕ => getCell (setCell g r c 0) rc.1 rc.2 == 0) (r, c)
    cellIdxs cellIdxs_nodup hmem hcong
  have hold : (getCell g r c == 0) = false := by simpa using h
  have hnew : (getCell (setCell g r c 0) r c == 0) = true := by
    simp [getCell_setCell_self_of_ne g r c 0 h]
  simp [hold, hnew] at key
  simp only [numZeros]
  omega

theorem numZeros_pred_of_fill (g : Grid) (r c n : ℕ) (hn : n ≠ 0)
    (h0 : getCell g r c = 0) (hr : r < gridSize) (hc : c < gridSize)
    (hbr : r < g.length) (hbc : c < (g.getD r []).length) :
    numZeros (setCell g r c n) + 1 = numZeros g := by
  have hmem : (r, c) ∈ cellIdxs := mem_cellIdxs.mpr ⟨hr, hc⟩
  have hcong : ∀ y ∈ cellIdxs, y ≠ (r, c) →
      (getCell (setCell g r c n) y.1 y.2 == 0) = (getCell g y.1 y.2 == 0) := by
    intro y _ hy
    rw [getCell_setCell_ne g r c n y.1 y.2 (fun hrc => hy (Prod.ext hrc.1 hrc.2))]
  have key := filter_length_update (fun rc : ℕ × ℕ => getCell g rc.1 rc.2 == 0)
    (fun rc : ℕ × ℕ => getCell (setCell g r c n) rc.1 rc.2 == 0) (r, c)
    cellIdxs cellIdxs_nodup hmem hcong
  have hold : (getCell g r c == 0) = true := by simpa using h0
  have hnew : (getCell (setCell g r c n) r c == 0) = false := by
    simp [getCell_setCell_self g r c n hbr hbc, hn]
  simp [hold, hnew] at key
  simp only [numZeros]
  omega

/-! ### In-bounds grids -/

theorem InBounds_setCell (g : Grid) (r c v : ℕ) (h : InBounds g) :
    InBounds (setCell g r c v) := by
  refine ⟨?_, ?_⟩
  · rw [length_setCell]; exact h.1
  · intro r' hr'
    rw [rowLen_setCell]
    exact h.2 r' hr'

theorem InBounds_of_numZeros_eq_zero (s : Grid) (h : numZeros s = 0) : InBounds s := by
  have hg : gridSize = 9 := rfl
  have hall : ∀ rc ∈ cellIdxs, ¬(getCell s rc.1 rc.2 == 0) = true := by
    rw [numZeros, List.length_eq_zero] at h
    exact List.filter_eq_nil_iff.mp h
  have hcell : ∀ r < gridSize, ∀ c < gridSize, getCell s r c ≠ 0 := by
    intro r hr c hc
    have := hall (r, c) (mem_cellIdxs.mpr ⟨hr, hc⟩)
    simpa using this
  have hrow : ∀ r < gridSize, gridSize ≤ (s.getD r []).length := by
    intro r hr
    have h8 : getCell s r 8 ≠ 0 := hcell r hr 8 (by decide)
    have := lt_length_of_getD_ne_default (s.getD r []) 0 8 h8
    omega
  refine ⟨?_, hrow⟩
  have h8 : s.getD 8 [] ≠ [] := by
    have := hrow 8 (by decide)
    intro e; rw [e] at this; simp [gridSize] at this
  have := lt_length_of_getD_ne_default s [] 8 h8
  omega

/-! ### Shuffle, scan and fill lemmas -/

theorem swapAt_length (l : List ℕ) (i j : ℕ) : (swapAt l i j).length = l.length := by
  simp [swapAt]

theorem mem_of_mem_swapAt (l : List ℕ) (i j : ℕ) (hi : i < l.length) (hj : j < l.length) :
    ∀ x ∈ swapAt l i j, x ∈ l := by
  intro x hx
  have hgi : l.getD i 0 ∈ l := by
    rw [List.getD_eq_getElem _ _ hi]; exact List.getElem_mem hi
  have hgj : l.getD j 0 ∈ l := by
    rw [List.getD_eq_getElem _ _ hj]; exact List.getElem_mem hj
  unfold swapAt at hx
  rcases List.mem_or_eq_of_mem_set hx with hx' | rfl
  · rcases List.mem_or_eq_of_mem_set hx' with hx'' | rfl
    · exact hx''
    · exact hgj
  · exact hgi

theorem fyGo_length (σ : Rng) : ∀ (i : ℕ) (l : List ℕ) (k : ℕ),
    (fyGo σ i l k).1.length = l.length := by
  intro i
  induction i with
  | zero => intro l k; rfl
  | succ i ih => intro l k; rw [fyGo, ih, swapAt_length]

theorem fyGo_k (σ : Rng) : ∀ (i : ℕ) (l : List ℕ) (k : ℕ),
    (fyGo σ i l k).2 = k + i := by
  intro i
  induction i with
  | zero => intro l k; rfl
  | succ i ih => intro l k; rw [fyGo, ih]; omega

theorem mem_of_mem_fyGo (σ : Rng) : ∀ (i : ℕ) (l : List ℕ) (k : ℕ), i < l.length →
    ∀ x ∈ (fyGo σ i l k).1, x ∈ l := by
  intro i
  induction i with
  | zero => intro l k _ x hx; exact hx
  | succ i ih =>
    intro l k hi x hx
    rw [fyGo] at hx
    have hj : σ k % (i + 2) < l.length := lt_of_lt_of_le (Nat.mod_lt _ (by omega)) hi
    have hlen : i < (swapAt l (i + 1) (σ k % (i + 2))).length := by
      rw [swapAt_length]; omega
    exact mem_of_mem_swapAt l (i + 1) _ hi hj x (ih _ _ hlen x hx)

theorem shuffle9_mem (σ : Rng) (k : ℕ) :
    ∀ x ∈ (shuffleList σ oneToNine k).1, x ∈ oneToNine := by
  intro x hx
  exact mem_of_mem_fyGo σ 8 oneToNine k (by decide) x hx

theorem shuffle9_k (σ : Rng) (k : ℕ) : (shuffleList σ oneToNine k).2 = k + 8 :=
  fyGo_k σ 8 oneToNine k

theorem fillBox_k (σ : Rng) (g : Grid) (row col k : ℕ) :
    (fillBox σ g row col k).2 = k + 8 := by
  unfold fillBox
  exact shuffle9_k σ k

theorem findEmpty_spec (g : Grid) (r c : ℕ) (h : findEmpty g = some (r, c)) :
    r < gridSize ∧ c < gridSize ∧ getCell g r c = 0 := by
  obtain ⟨a, ha, hfa⟩ := List.exists_of_findSome?_eq_some h
  rcases Option.map_eq_some'.mp hfa with ⟨c', hc', hac⟩
  injection hac with h1 h2
  subst h1; subst h2
  refine ⟨List.mem_range.mp ha, List.mem_range.mp (List.mem_of_find?_eq_some hc'), ?_⟩
  have := List.find?_some hc'
  simpa using this

/-- Unfolding of `fillBox` to its nine cell writes (the `range 3` folds reduce). -/
theorem fillBox_eq (σ : Rng) (g : Grid) (row col k : ℕ) :
    fillBox σ g row col k =
      (let nums := (shuffleList σ oneToNine k).1
       setCell (setCell (setCell (setCell (setCell (setCell (setCell (setCell (setCell
         g row col (nums.getD 0 0))
         row (col + 1) (nums.getD 1 0))
         row (col + 2) (nums.getD 2 0))
         (row + 1) col (nums.getD 3 0))
         (row + 1) (col + 1) (nums.getD 4 0))
         (row + 1) (col + 2) (nums.getD 5 0))
         (row + 2) col (nums.getD 6 0))
         (row + 2) (col + 1) (nums.getD 7 0))
         (row + 2) (col + 2) (nums.getD 8 0),
       (shuffleList σ oneToNine k).2) := by
  rfl

theorem InBounds_fillBox (σ : Rng) (g : Grid) (row col k : ℕ) (h : InBounds g) :
    InBounds (fillBox σ g row col k).1 := by
  rw [fillBox_eq]
  exact InBounds_setCell _ _ _ _ (InBounds_setCell _ _ _ _ (InBounds_setCell _ _ _ _
    (InBounds_setCell _ _ _ _ (InBounds_setCell _ _ _ _ (InBounds_setCell _ _ _ _
    (InBounds_setCell _ _ _ _ (InBounds_setCell _ _ _ _ (InBounds_setCell _ _ _ _ h))))))))

theorem InBounds_emptyGrid : InBounds emptyGrid := by decide

/-! ### Termination of the backtracking solver -/

theorem tryNums_isSome (σ : Rng) (f : ℕ) (g : Grid) (r c : ℕ)
    (IH : ∀ g' k', InBounds g' → numZeros g' < f → (solveFuel σ f g' k').isSome)
    (hg : InBounds g) (hz : numZeros g < f + 1)
    (h0 : getCell g r c = 0) (hr : r < gridSize) (hc : c < gridSize) :
    ∀ (ns : List ℕ) (k : ℕ), (∀ n ∈ ns, n ≠ 0) →
      (tryNums (solveFuel σ f) g r c ns k).isSome := by
  intro ns
  induction ns with
  | nil => intro k _; simp [tryNums]
  | cons n ns ih =>
    intro k hns
    rw [tryNums]
    by_cases hv : isValidCell g r c n
    · have hbr : r < g.length := lt_of_lt_of_le hr hg.1
      have hbc : c < (g.getD r []).length := lt_of_lt_of_le hc (hg.2 r hr)
      have hdec := numZeros_pred_of_fill g r c n (hns n (List.mem_cons_self n ns))
        h0 hr hc hbr hbc
      have hsome := IH (setCell g r c n) k (InBounds_setCell g r c n hg) (by omega)
      rw [if_pos hv]
      obtain ⟨res, hres⟩ := Option.isSome_iff_exists.mp hsome
      rw [hres]
      obtain ⟨b, g2, k2⟩ := res
      cases b
      · exact ih k2 fun m hm => hns m (List.mem_cons_of_mem _ hm)
      · simp
    · rw [if_neg hv]
      exact ih k fun m hm => hns m (List.mem_cons_of_mem _ hm)

theorem solveFuel_isSome (σ : Rng) : ∀ (f : ℕ) (g : Grid) (k : ℕ),
    InBounds g → numZeros g < f → (solveFuel σ f g k).isSome := by
  intro f
  induction f with
  | zero => intro g k _ h; omega
  | succ f ih =>
    intro g k hg hz
    rw [solveFuel]
    cases hfe : findEmpty g with
    | none => simp
    | some rc =>
      obtain ⟨r, c⟩ := rc
      obtain ⟨hr, hc, h0⟩ := findEmpty_spec g r c hfe
      exact tryNums_isSome σ f g r c ih hg hz h0 hr hc _ _
        fun n hn e => absurd (e ▸ shuffle9_mem σ k n hn) (by decide)

theorem solveFuel82_isSome (σ : Rng) (g : Grid) (k : ℕ) (h : InBounds g) :
    (solveFuel σ 82 g k).isSome :=
  solveFuel_isSome σ 82 g k h (by have := numZeros_le g; omega)

/-! ### The stream cursor never moves backwards -/

theorem tryNums_k_le (solveRec : Grid → ℕ → Option (Bool × Grid × ℕ))
    (hmono : ∀ g' k' res, solveRec g' k' = some res → k' ≤ res.2.2)
    (g : Grid) (r c : ℕ) :
    ∀ (ns : List ℕ) (k : ℕ) (res : Bool × Grid × ℕ),
      tryNums solveRec g r c ns k = some res → k ≤ res.2.2 := by
  intro ns
  induction ns with
  | nil =>
    intro k res h
    rw [tryNums] at h
    cases h
    exact le_refl _
  | cons n ns ih =>
    intro k res h
    rw [tryNums] at h
    by_cases hv : isValidCell g r c n
    · rw [if_pos hv] at h
      cases hs : solveRec (setCell g r c n) k with
      | none => rw [hs] at h; cases h
      | some r1 =>
        rw [hs] at h
        obtain ⟨b, g2, k2⟩ := r1
        have hk2 : k ≤ k2 := hmono _ _ _ hs
        cases b
        · have h' : tryNums solveRec g r c ns k2 = some res := h
          exact hk2.trans (ih k2 res h')
        · have h' : some (true, g2, k2) = some res := h
          cases h'
          exact hk2
    · rw [if_neg hv] at h
      exact ih k res h

theorem solveFuel_k_le (σ : Rng) : ∀ (f : ℕ) (g : Grid) (k : ℕ) (res : Bool × Grid × ℕ),
    solveFuel σ f g k = some res → k ≤ res.2.2 := by
  intro f
  induction f with
  | zero => intro g k res h; cases h
  | succ f ih =>
    intro g k res h
    rw [solveFuel] at h
    cases hfe : findEmpty g with
    | none =>
      rw [hfe] at h
      have h' : some (true, g, k) = some res := h
      cases h'
      exact le_refl _
    | some rc =>
      rw [hfe] at h
      obtain ⟨r, c⟩ := rc
      have h' : tryNums (solveFuel σ f) g r c (shuffleList σ oneToNine k).1
          (shuffleList σ oneToNine k).2 = some res := h
      have := tryNums_k_le (solveFuel σ f) (ih) g r c _ _ res h'
      rw [shuffle9_k] at this
      omega

theorem removeLoop_k_le (σ : Rng) : ∀ (f : ℕ) (p : Grid) (rem att tgt k : ℕ)
    (res : Grid × ℕ), removeLoop σ f p rem att tgt k = some res → k ≤ res.2 := by
  intro f
  induction f with
  | zero =>
    intro p rem att tgt k res h
    rw [removeLoop] at h
    by_cases hcond : (decide (rem < tgt) && decide (att < 100)) = true
    · rw [if_pos hcond] at h; cases h
    · rw [if_neg hcond] at h; cases h; exact le_refl _
  | succ f ih =>
    intro p rem att tgt k res h
    rw [removeLoop] at h
    by_cases hcond : (decide (rem < tgt) && decide (att < 100)) = true
    · rw [if_pos hcond] at h
      simp only [randint] at h
      by_cases hnz : (getCell p (0 + σ k % (gridSize - 1 - 0 + 1))
          (0 + σ (k + 1) % (gridSize - 1 - 0 + 1)) != 0) = true
      · rw [if_pos hnz] at h
        have h' : removeLoop σ f _ (rem + 1) (att + 1) tgt (k + 1 + 1) = some res := h
        have := ih _ _ _ _ _ _ h'
        omega
      · rw [if_neg hnz] at h
        have := ih _ _ _ _ _ _ h
        omega
    · rw [if_neg hcond] at h; cases h; exact le_refl _

theorem generate_k_le (σ : Rng) (k : ℕ) : k ≤ (generateCompleteGrid σ k).2 := by
  unfold generateCompleteGrid solveGrid
  simp only [fillBox_k]
  cases hs : solveFuel σ 82 (fillBox σ (fillBox σ (fillBox σ emptyGrid 0 0 k).1 3 3
      (k + 8)).1 6 6 (k + 8 + 8)).1 (k + 8 + 8 + 8) with
  | none => simp; omega
  | some res =>
    have := solveFuel_k_le σ 82 _ _ res hs
    simp
    omega

/-! ### Outputs depend only on the consumed segment of the stream -/

theorem fyGo_agree (σ σ' : Rng) : ∀ (i : ℕ) (l : List ℕ) (k : ℕ),
    (∀ m < k + i, σ' m = σ m) → fyGo σ' i l k = fyGo σ i l k := by
  intro i
  induction i with
  | zero => intro l k _; rfl
  | succ i ih =>
    intro l k h
    rw [fyGo, fyGo, h k (by omega)]
    exact ih _ _ fun m hm => h m (by omega)

theorem shuffle9_agree (σ σ' : Rng) (k : ℕ) (h : ∀ m < k + 8, σ' m = σ m) :
    shuffleList σ' oneToNine k = shuffleList σ oneToNine k :=
  fyGo_agree σ σ' 8 oneToNine k h

theorem fillBox_agree (σ σ' : Rng) (g : Grid) (row col k : ℕ)
    (h : ∀ m < k + 8, σ' m = σ m) :
    fillBox σ' g row col k = fillBox σ g row col k := by
  unfold fillBox
  rw [shuffle9_agree σ σ' k h]

theorem tryNums_agree (σ σ' : Rng) (f : ℕ)
    (IH : ∀ (g : Grid) (k : ℕ) (res : Bool × Grid × ℕ), solveFuel σ f g k = some res →
      (∀ m < res.2.2, σ' m = σ m) → solveFuel σ' f g k = some res)
    (g : Grid) (r c : ℕ) :
    ∀ (ns : List ℕ) (k : ℕ) (res : Bool × Grid × ℕ),
      tryNums (solveFuel σ f) g r c ns k = some res →
      (∀ m < res.2.2, σ' m = σ m) →
      tryNums (solveFuel σ' f) g r c ns k = some res := by
  intro ns
  induction ns with
  | nil => intro k res h _; exact h
  | cons n ns ih =>
    intro k res h hag
    rw [tryNums] at h ⊢
    by_cases hv : isValidCell g r c n
    · rw [if_pos hv] at h ⊢
      cases hs : solveFuel σ f (setCell g r c n) k with
      | none => rw [hs] at h; cases h
      | some r1 =>
        rw [hs] at h
        obtain ⟨b, g2, k2⟩ := r1
        cases b
        · have h' : tryNums (solveFuel σ f) g r c ns k2 = some res := h
          have hk2le : k2 ≤ res.2.2 :=
            tryNums_k_le (solveFuel σ f) (solveFuel_k_le σ f) g r c ns k2 res h'
          have hs' : solveFuel σ' f (setCell g r c n) k = some (false, g2, k2) :=
            IH _ _ _ hs fun m hm => hag m (lt_of_lt_of_le hm hk2le)
          rw [hs']
          exact ih k2 res h' hag
        · have h' : some ((true, g2, k2) : Bool × Grid × ℕ) = some res := h
          have hk2 : res.2.2 = k2 := by cases h'; rfl
          have hs' : solveFuel σ' f (setCell g r c n) k = some (true, g2, k2) :=
            IH _ _ _ hs fun m hm => hag m (by rw [hk2]; exact hm)
          rw [hs']
          exact h'
    · rw [if_neg hv] at h ⊢
      exact ih k res h hag

theorem solveFuel_agree (σ σ' : Rng) : ∀ (f : ℕ) (g : Grid) (k : ℕ)
    (res : Bool × Grid × ℕ), solveFuel σ f g k = some res →
    (∀ m < res.2.2, σ' m = σ m) → solveFuel σ' f g k = some res := by
  intro f
  induction f with
  | zero => intro g k res h _; cases h
  | succ f ih =>
    intro g k res h hag
    rw [solveFuel] at h
    cases hfe : findEmpty g with
    | none =>
      rw [hfe] at h
      rw [solveFuel, hfe]
      exact h
    | some rc =>
      rw [hfe] at h
      obtain ⟨r, c⟩ := rc
      have h' : tryNums (solveFuel σ f) g r c (shuffleList σ oneToNine k).1
          (shuffleList σ oneToNine k).2 = some res := h
      have hk1 : (shuffleList σ oneToNine k).2 ≤ res.2.2 :=
        tryNums_k_le _ (solveFuel_k_le σ f) g r c _ _ res h'
      rw [shuffle9_k] at hk1
      have hsh : shuffleList σ' oneToNine k = shuffleList σ oneToNine k :=
        shuffle9_agree σ σ' k fun m hm => hag m (lt_of_lt_of_le hm hk1)
      have goal' : tryNums (solveFuel σ' f) g r c (shuffleList σ' oneToNine k).1
          (shuffleList σ' oneToNine k).2 = some res := by
        rw [hsh]
        exact tryNums_agree σ σ' f ih g r c _ _ res h' hag
      rw [solveFuel, hfe]
      exact goal'

/-- Unfolding of `generate_complete_grid` to its components. -/
theorem generate_eq (σ : Rng) (k : ℕ) :
    generateCompleteGrid σ k =
      ((solveGrid σ (fillBox σ (fillBox σ (fillBox σ emptyGrid 0 0 k).1 3 3
          (k + 8)).1 6 6 (k + 8 + 8)).1 (k + 8 + 8 + 8)).2.1,
       (solveGrid σ (fillBox σ (fillBox σ (fillBox σ emptyGrid 0 0 k).1 3 3
          (k + 8)).1 6 6 (k + 8 + 8)).1 (k + 8 + 8 + 8)).2.2) := by
  simp only [generateCompleteGrid, fillBox_k]

theorem generate_agree (σ σ' : Rng) (k : ℕ)
    (h : ∀ m < (generateCompleteGrid σ k).2, σ' m = σ m) :
    generateCompleteGrid σ' k = generateCompleteGrid σ k := by
  have hin3 : InBounds (fillBox σ (fillBox σ (fillBox σ emptyGrid 0 0 k).1 3 3
      (k + 8)).1 6 6 (k + 8 + 8)).1 :=
    InBounds_fillBox _ _ _ _ _ (InBounds_fillBox _ _ _ _ _
      (InBounds_fillBox _ _ _ _ _ InBounds_emptyGrid))
  obtain ⟨res, hres⟩ := Option.isSome_iff_exists.mp
    (solveFuel82_isSome σ _ (k + 8 + 8 + 8) hin3)
  have hkres : k + 8 + 8 + 8 ≤ res.2.2 := solveFuel_k_le σ 82 _ _ res hres
  have hK : (generateCompleteGrid σ k).2 = res.2.2 := by
    rw [generate_eq]
    simp only [solveGrid, hres]
  rw [hK] at h
  have e1 : fillBox σ' emptyGrid 0 0 k = fillBox σ emptyGrid 0 0 k :=
    fillBox_agree σ σ' _ _ _ _ fun m hm => h m (by omega)
  have e2 : fillBox σ' (fillBox σ emptyGrid 0 0 k).1 3 3 (k + 8)
      = fillBox σ (fillBox σ emptyGrid 0 0 k).1 3 3 (k + 8) :=
    fillBox_agree σ σ' _ _ _ _ fun m hm => h m (by omega)
  have e3 : fillBox σ' (fillBox σ (fillBox σ emptyGrid 0 0 k).1 3 3 (k + 8)).1 6 6
      (k + 8 + 8) = fillBox σ (fillBox σ (fillBox σ emptyGrid 0 0 k).1 3 3 (k + 8)).1
      6 6 (k + 8 + 8) :=
    fillBox_agree σ σ' _ _ _ _ fun m hm => h m (by omega)
  have hres' : solveFuel σ' 82 (fillBox σ (fillBox σ (fillBox σ emptyGrid 0 0 k).1 3 3
      (k + 8)).1 6 6 (k + 8 + 8)).1 (k + 8 + 8 + 8) = some res :=
    solveFuel_agree σ σ' 82 _ _ res hres h
  have esolve : solveGrid σ' (fillBox σ (fillBox σ (fillBox σ emptyGrid 0 0 k).1 3 3
      (k + 8)).1 6 6 (k + 8 + 8)).1 (k + 8 + 8 + 8)
      = solveGrid σ (fillBox σ (fillBox σ (fillBox σ emptyGrid 0 0 k).1 3 3
      (k + 8)).1 6 6 (k + 8 + 8)).1 (k + 8 + 8 + 8) := by
    simp only [solveGrid, hres, hres']
  rw [generate_eq σ' k, generate_eq σ k, e1, e2, e3, esolve]

theorem removeLoop_agree (σ σ' : Rng) : ∀ (f : ℕ) (p : Grid) (rem att tgt k : ℕ)
    (res : Grid × ℕ), removeLoop σ f p rem att tgt k = some res →
    (∀ m < res.2, σ' m = σ m) → removeLoop σ' f p rem att tgt k = some res := by
  intro f
  induction f with
  | zero =>
    intro p rem att tgt k res h _
    rw [removeLoop] at h ⊢
    by_cases hcond : (decide (rem < tgt) && decide (att < 100)) = true
    · rw [if_pos hcond] at h; cases h
    · rw [if_neg hcond] at h ⊢; exact h
  | succ f ih =>
    intro p rem att tgt k res h hag
    rw [removeLoop] at h ⊢
    by_cases hcond : (decide (rem < tgt) && decide (att < 100)) = true
    · rw [if_pos hcond] at h ⊢
      simp only [randint] at h ⊢
      by_cases hnz : (getCell p (0 + σ k % (gridSize - 1 - 0 + 1))
          (0 + σ (k + 1) % (gridSize - 1 - 0 + 1)) != 0) = true
      · rw [if_pos hnz] at h
        have h' : removeLoop σ f _ (rem + 1) (att + 1) tgt (k + 1 + 1) = some res := h
        have hk2 : k + 1 + 1 ≤ res.2 := removeLoop_k_le σ f _ _ _ _ _ _ h'
        have ha0 : σ' k = σ k := hag k (by omega)
        have ha1 : σ' (k + 1) = σ (k + 1) := hag (k + 1) (by omega)
        rw [ha0, ha1, if_pos hnz]
        exact ih _ _ _ _ _ _ h' hag
      · rw [if_neg hnz] at h
        have h' : removeLoop σ f p rem att tgt (k + 1 + 1) = some res := h
        have hk2 : k + 1 + 1 ≤ res.2 := removeLoop_k_le σ f _ _ _ _ _ _ h'
        have ha0 : σ' k = σ k := hag k (by omega)
        have ha1 : σ' (k + 1) = σ (k + 1) := hag (k + 1) (by omega)
        rw [ha0, ha1, if_neg hnz]
        exact ih _ _ _ _ _ _ h' hag
    · rw [if_neg hcond] at h ⊢; exact h

/-! ### Invariants of the removal loop -/

/-- In the source, `attempts` is incremented exactly when `removed` is (the
stubbed uniqueness check accepts every removal), so a successful loop exit
always hits the removal target exactly: the final puzzle has precisely
`target` empty cells whenever the starting grid has `removed` many. -/
theorem removeLoop_exit_exact (σ : Rng) (z0 : ℕ) : ∀ (f : ℕ) (p : Grid) (rem tgt k : ℕ)
    (p' : Grid) (k' : ℕ), removeLoop σ f p rem rem tgt k = some (p', k') →
    numZeros p = z0 + rem → rem ≤ tgt → tgt ≤ 60 → numZeros p' = z0 + tgt := by
  intro f
  induction f with
  | zero =>
    intro p rem tgt k p' k' h hz hle h60
    rw [removeLoop] at h
    by_cases hcond : (decide (rem < tgt) && decide (rem < 100)) = true
    · rw [if_pos hcond] at h; cases h
    · rw [if_neg hcond] at h
      cases h
      simp only [Bool.and_eq_true, decide_eq_true_eq, not_and, not_lt] at hcond
      omega
  | succ f ih =>
    intro p rem tgt k p' k' h hz hle h60
    rw [removeLoop] at h
    by_cases hcond : (decide (rem < tgt) && decide (rem < 100)) = true
    · rw [if_pos hcond] at h
      simp only [Bool.and_eq_true, decide_eq_true_eq] at hcond
      simp only [randint] at h
      by_cases hnz : (getCell p (0 + σ k % (gridSize - 1 - 0 + 1))
          (0 + σ (k + 1) % (gridSize - 1 - 0 + 1)) != 0) = true
      · rw [if_pos hnz] at h
        have h' : removeLoop σ f _ (rem + 1) (rem + 1) tgt (k + 1 + 1) = some (p', k') := h
        have hne : getCell p (0 + σ k % (gridSize - 1 - 0 + 1))
            (0 + σ (k + 1) % (gridSize - 1 - 0 + 1)) ≠ 0 := by simpa using hnz
        have hrlt : 0 + σ k % (gridSize - 1 - 0 + 1) < gridSize := by
          have : σ k % 9 < 9 := Nat.mod_lt _ (by norm_num)
          simpa [gridSize] using this
        have hclt : 0 + σ (k + 1) % (gridSize - 1 - 0 + 1) < gridSize := by
          have : σ (k + 1) % 9 < 9 := Nat.mod_lt _ (by norm_num)
          simpa [gridSize] using this
        have hzz := numZeros_succ_of_remove p _ _ hne hrlt hclt
        exact ih _ _ _ _ _ _ h' (by omega) (by omega) h60
      · rw [if_neg hnz] at h
        exact ih _ _ _ _ _ _ h hz hle h60
    · rw [if_neg hcond] at h
      cases h
      simp only [Bool.and_eq_true, decide_eq_true_eq, not_and, not_lt] at hcond
      omega

/-- The removal loop only ever writes zeros into cells of the puzzle, so
"every cell is empty or still equal to the corresponding solution cell" is
preserved. -/
theorem removeLoop_preserve (σ : Rng) (s : Grid) : ∀ (f : ℕ) (p : Grid)
    (rem att tgt k : ℕ) (p' : Grid) (k' : ℕ),
    removeLoop σ f p rem att tgt k = some (p', k') →
    (∀ r c, getCell p r c = 0 ∨ getCell p r c = getCell s r c) →
    (∀ r c, getCell p' r c = 0 ∨ getCell p' r c = getCell s r c) := by
  intro f
  induction f with
  | zero =>
    intro p rem att tgt k p' k' h hq
    rw [removeLoop] at h
    by_cases hcond : (decide (rem < tgt) && decide (att < 100)) = true
    · rw [if_pos hcond] at h; cases h
    · rw [if_neg hcond] at h; cases h; exact hq
  | succ f ih =>
    intro p rem att tgt k p' k' h hq
    rw [removeLoop] at h
    by_cases hcond : (decide (rem < tgt) && decide (att < 100)) = true
    · rw [if_pos hcond] at h
      simp only [randint] at h
      by_cases hnz : (getCell p (0 + σ k % (gridSize - 1 - 0 + 1))
          (0 + σ (k + 1) % (gridSize - 1 - 0 + 1)) != 0) = true
      · rw [if_pos hnz] at h
        have h' : removeLoop σ f _ (rem + 1) (att + 1) tgt (k + 1 + 1) = some (p', k') := h
        refine ih _ _ _ _ _ _ _ h' ?_
        intro r c
        by_cases hrc : r = 0 + σ k % (gridSize - 1 - 0 + 1)
            ∧ c = 0 + σ (k + 1) % (gridSize - 1 - 0 + 1)
        · obtain ⟨rfl, rfl⟩ := hrc
          rcases getCell_setCell_or p _ _ 0 with h0 | hsame
          · exact Or.inl h0
          · rw [hsame]; exact hq _ _
        · rw [getCell_setCell_ne p _ _ 0 r c (by tauto)]
          exact hq r c
      · rw [if_neg hnz] at h
        exact ih _ _ _ _ _ _ _ h hq
    · rw [if_neg hcond] at h; cases h; exact hq

/-! ### Streams on which the removal loop never terminates -/

/-- Once cell (0,0) is empty, a stream that keeps drawing zeros keeps the
loop selecting cell (0,0) without ever incrementing `removed` or `attempts`,
so no amount of fuel makes it exit. -/
theorem removeLoop_zero_stuck (σ : Rng) (K : ℕ) (hz : ∀ m, K ≤ m → σ m = 0) :
    ∀ (f : ℕ) (p : Grid) (rem att tgt k : ℕ), K ≤ k → getCell p 0 0 = 0 →
      rem < tgt → att < 100 → removeLoop σ f p rem att tgt k = none := by
  intro f
  induction f with
  | zero =>
    intro p rem att tgt k _ _ hrt hat
    rw [removeLoop]
    rw [if_pos (by simp [hrt, hat])]
  | succ f ih =>
    intro p rem att tgt k hk h00 hrt hat
    rw [removeLoop]
    rw [if_pos (by simp [hrt, hat])]
    simp only [randint, hz k hk, hz (k + 1) (by omega)]
    rw [if_neg (by simpa using h00)]
    exact ih p rem att tgt (k + 1 + 1) (by omega) h00 hrt hat

/-- Entering the removal loop with an all-zero tail of the stream (and room
for at least one more removal) never terminates: the first hit clears cell
(0,0) and every later draw re-selects the now-empty cell. -/
theorem removeLoop_entry_stuck (σ : Rng) (K : ℕ) (hz : ∀ m, K ≤ m → σ m = 0) :
    ∀ (f : ℕ) (p : Grid) (rem att tgt k : ℕ), K ≤ k →
      rem + 1 < tgt → att + 1 < 100 → removeLoop σ f p rem att tgt k = none := by
  intro f p rem att tgt k hk hrt hat
  cases f with
  | zero =>
    rw [removeLoop]
    rw [if_pos (by simp; omega)]
  | succ f =>
    rw [removeLoop]
    rw [if_pos (by simp; omega)]
    simp only [randint, hz k hk, hz (k + 1) (by omega)]
    by_cases h00 : (getCell p (0 + 0 % (gridSize - 1 - 0 + 1))
        (0 + 0 % (gridSize - 1 - 0 + 1)) != 0) = true
    · rw [if_pos h00]
      have h00' : getCell (setCell p (0 + 0 % (gridSize - 1 - 0 + 1))
          (0 + 0 % (gridSize - 1 - 0 + 1)) 0) 0 0 = 0 := by
        have := getCell_setCell_self_of_ne p (0 + 0 % (gridSize - 1 - 0 + 1))
          (0 + 0 % (gridSize - 1 - 0 + 1)) 0 (by simpa using h00)
        simpa using this
      exact removeLoop_zero_stuck σ K hz f _ (rem + 1) (att + 1) tgt (k + 1 + 1)
        (by omega) h00' (by omega) (by omega)
    · rw [if_neg h00]
      exact removeLoop_zero_stuck σ K hz f p rem att tgt (k + 1 + 1)
        (by omega) (by simpa using h00) (by omega) (by omega)

/-! ### Facts about `create_puzzle` -/

theorem difficultyMap_bounds {d : String} {lo hi : ℕ}
    (h : difficultyMap d = some (lo, hi)) : 35 ≤ lo ∧ lo ≤ hi ∧ hi ≤ 60 := by
  unfold difficultyMap at h
  split_ifs at h
  all_goals cases h
  all_goals omega

/-- Unknown difficulty tokens are silently replaced by `'medium'` before any
other step of `create_puzzle`, so the whole call behaves as a `'medium'` call. -/
theorem createPuzzle_coerce (σ : Rng) (d : String) (fuel k : ℕ)
    (h : difficultyMap d = none) :
    createPuzzle σ d fuel k = createPuzzle σ "medium" fuel k := by
  unfold createPuzzle
  rw [h]
  rfl

/-- Decomposition of a successful `create_puzzle` call into its solution grid
and removal-loop run. -/
theorem createPuzzle_run (σ : Rng) (d : String) (fuel k : ℕ) (p s : Grid) (k' : ℕ)
    (h : createPuzzle σ d fuel k = some (p, s, k')) :
    s = (generateCompleteGrid σ (k + 1)).1 ∧
    removeLoop σ fuel (generateCompleteGrid σ (k + 1)).1 0 0
      (((difficultyMap (if (difficultyMap d).isSome then d else "medium")).getD (0, 0)).1
        + σ k % (((difficultyMap (if (difficultyMap d).isSome then d
              else "medium")).getD (0, 0)).2
          - ((difficultyMap (if (difficultyMap d).isSome then d
              else "medium")).getD (0, 0)).1 + 1))
      (generateCompleteGrid σ (k + 1)).2 = some (p, k') := by
  simp only [createPuzzle, randint, Option.map_eq_some'] at h
  obtain ⟨⟨p0, k3⟩, hrl, heq⟩ := h
  simp only [Prod.mk.injEq] at heq
  obtain ⟨rfl, rfl, rfl⟩ := heq
  exact ⟨rfl, hrl⟩

/-- Writing one cell destroys at most one counted zero. -/
theorem numZeros_setCell_ge (g : Grid) (r c v : ℕ) :
    numZeros g ≤ numZeros (setCell g r c v) + 1 := by
  by_cases hin : r < gridSize ∧ c < gridSize
  · have hmem : (r, c) ∈ cellIdxs := mem_cellIdxs.mpr hin
    have hcong : ∀ y ∈ cellIdxs, y ≠ (r, c) →
        (getCell (setCell g r c v) y.1 y.2 == 0) = (getCell g y.1 y.2 == 0) := by
      intro y _ hy
      rw [getCell_setCell_ne g r c v y.1 y.2 (fun hrc => hy (Prod.ext hrc.1 hrc.2))]
    have key := filter_length_update (fun rc : ℕ × ℕ => getCell g rc.1 rc.2 == 0)
      (fun rc : ℕ × ℕ => getCell (setCell g r c v) rc.1 rc.2 == 0) (r, c)
      cellIdxs cellIdxs_nodup hmem hcong
    rcases Bool.eq_false_or_eq_true (getCell g r c == 0) with hp | hp <;>
      rcases Bool.eq_false_or_eq_true (getCell (setCell g r c v) r c == 0) with hq | hq <;>
        simp [hp, hq] at key <;> simp only [numZeros] <;> omega
  · have hcong : ∀ y ∈ cellIdxs,
        (getCell (setCell g r c v) y.1 y.2 == 0) = (getCell g y.1 y.2 == 0) := by
      intro y hy
      obtain ⟨a, b⟩ := y
      obtain ⟨ha, hb⟩ := mem_cellIdxs.mp hy
      rw [getCell_setCell_ne g r c v a b (fun hrc => hin ⟨hrc.1 ▸ ha, hrc.2 ▸ hb⟩)]
    have : numZeros (setCell g r c v) = numZeros g := by
      simp only [numZeros]
      rw [List.filter_congr hcong]
    omega

/-- One `_fill_box` call writes nine cells, so it destroys at most nine zeros. -/
theorem numZeros_fillBox_ge (σ : Rng) (g : Grid) (row col k : ℕ) :
    numZeros g ≤ numZeros (fillBox σ g row col k).1 + 9 := by
  have step : ∀ (g' : Grid) (r' c' v' n : ℕ), numZeros g ≤ numZeros g' + n →
      numZeros g ≤ numZeros (setCell g' r' c' v') + (n + 1) := by
    intro g' r' c' v' n hle
    have := numZeros_setCell_ge g' r' c' v'
    omega
  rw [fillBox_eq]
  exact step _ _ _ _ 8 (step _ _ _ _ 7 (step _ _ _ _ 6 (step _ _ _ _ 5 (step _ _ _ _ 4
    (step _ _ _ _ 3 (step _ _ _ _ 2 (step _ _ _ _ 1 (step _ _ _ _ 0 (by omega)))))))))

/-- A failed candidate loop hands back exactly its entry grid (the source
restores `grid[row][col] = 0` on every backtrack). -/
theorem tryNums_false_eq (solveRec : Grid → ℕ → Option (Bool × Grid × ℕ))
    (g : Grid) (r c : ℕ) : ∀ (ns : List ℕ) (k : ℕ) (g2 : Grid) (k2 : ℕ),
    tryNums solveRec g r c ns k = some (false, g2, k2) → g2 = g := by
  intro ns
  induction ns with
  | nil =>
    intro k g2 k2 h
    rw [tryNums] at h
    injection h with h'
    injection h' with hb h'
    injection h' with hg hk
    exact hg.symm
  | cons n ns ih =>
    intro k g2 k2 h
    rw [tryNums] at h
    by_cases hv : isValidCell g r c n
    · rw [if_pos hv] at h
      cases hs : solveRec (setCell g r c n) k with
      | none => rw [hs] at h; cases h
      | some r1 =>
        rw [hs] at h
        obtain ⟨b, g3, k3⟩ := r1
        cases b
        · exact ih k3 g2 k2 h
        · have h' : some ((true, g3, k3) : Bool × Grid × ℕ)
              = some ((false, g2, k2) : Bool × Grid × ℕ) := h
          injection h' with h'
          injection h' with hb _
          exact Bool.noConfusion hb
    · rw [if_neg hv] at h
      exact ih k g2 k2 h

/-- A failed `_solve_grid` search returns its entry grid unchanged. -/
theorem solveFuel_false_eq (σ : Rng) : ∀ (f : ℕ) (g : Grid) (k : ℕ) (g2 : Grid)
    (k2 : ℕ), solveFuel σ f g k = some (false, g2, k2) → g2 = g := by
  intro f
  induction f with
  | zero => intro g k g2 k2 h; cases h
  | succ f ih =>
    intro g k g2 k2 h
    rw [solveFuel] at h
    cases hfe : findEmpty g with
    | none =>
      rw [hfe] at h
      have h' : some ((true, g, k) : Bool × Grid × ℕ)
          = some ((false, g2, k2) : Bool × Grid × ℕ) := h
      injection h' with h'
      injection h' with hb _
      exact Bool.noConfusion hb
    | some rc =>
      rw [hfe] at h
      obtain ⟨r, c⟩ := rc
      exact tryNums_false_eq (solveFuel σ f) g r c _ _ g2 k2 h

/-- A grid on which the row-major scan finds no empty cell has no zeros in
the 9×9 window. -/
theorem findEmpty_none_numZeros (g : Grid) (h : findEmpty g = none) :
    numZeros g = 0 := by
  have hall : ∀ r < gridSize, ∀ c < gridSize, getCell g r c ≠ 0 := by
    intro r hr c hc
    rw [findEmpty, List.findSome?_eq_none_iff] at h
    have h1 := h r (List.mem_range.mpr hr)
    rw [Option.map_eq_none', List.find?_eq_none] at h1
    have := h1 c (List.mem_range.mpr hc)
    simpa using this
  simp only [numZeros]
  rw [List.length_eq_zero, List.filter_eq_nil_iff]
  intro rc hrc
  obtain ⟨a, b⟩ := rc
  obtain ⟨ha, hb⟩ := mem_cellIdxs.mp hrc
  simp [hall a ha b hb]

/-- A successful candidate loop hands back a grid with no empty cell. -/
theorem tryNums_true_complete (solveRec : Grid → ℕ → Option (Bool × Grid × ℕ))
    (hrec : ∀ g' k' g'' k'', solveRec g' k' = some (true, g'', k'') → findEmpty g'' = none)
    (g : Grid) (r c : ℕ) : ∀ (ns : List ℕ) (k : ℕ) (g2 : Grid) (k2 : ℕ),
    tryNums solveRec g r c ns k = some (true, g2, k2) → findEmpty g2 = none := by
  intro ns
  induction ns with
  | nil =>
    intro k g2 k2 h
    rw [tryNums] at h
    injection h with h'
    injection h' with hb _
    exact Bool.noConfusion hb
  | cons n ns ih =>
    intro k g2 k2 h
    rw [tryNums] at h
    by_cases hv : isValidCell g r c n
    · rw [if_pos hv] at h
      cases hs : solveRec (setCell g r c n) k with
      | none => rw [hs] at h; cases h
      | some r1 =>
        rw [hs] at h
        obtain ⟨b, g3, k3⟩ := r1
        cases b
        · exact ih k3 g2 k2 h
        · have h' : some ((true, g3, k3) : Bool × Grid × ℕ)
              = some ((true, g2, k2) : Bool × Grid × ℕ) := h
          injection h' with h'
          injection h' with _ h'
          injection h' with hg _
          rw [← hg]
          exact hrec _ _ _ _ hs
    · rw [if_neg hv] at h
      exact ih k g2 k2 h

/-- A successful `_solve_grid` search returns a grid with no empty cell. -/
theorem solveFuel_true_complete (σ : Rng) : ∀ (f : ℕ) (g : Grid) (k : ℕ)
    (g2 : Grid) (k2 : ℕ), solveFuel σ f g k = some (true, g2, k2) →
    findEmpty g2 = none := by
  intro f
  induction f with
  | zero => intro g k g2 k2 h; cases h
  | succ f ih =>
    intro g k g2 k2 h
    rw [solveFuel] at h
    cases hfe : findEmpty g with
    | none =>
      rw [hfe] at h
      have h' : some ((true, g, k) : Bool × Grid × ℕ)
          = some ((true, g2, k2) : Bool × Grid × ℕ) := h
      injection h' with h'
      injection h' with _ h'
      injection h' with hg _
      rw [← hg]
      exact hfe
    | some rc =>
      rw [hfe] at h
      obtain ⟨r, c⟩ := rc
      exact tryNums_true_complete (solveFuel σ f) (fun g' k' => ih g' k') g r c _ _ g2 k2 h

/-- Every solution grid handed out by a successful `create_puzzle` call is
complete (no zeros): if the backtracking failed, the solution would still be
the diagonal-only grid with at least 54 empty cells, leaving at most 27
removable cells — too few for any difficulty target (≥ 35), so the removal
loop could never exit successfully. -/
theorem createPuzzle_solution_complete (σ : Rng) (d : String) (fuel k : ℕ)
    (p s : Grid) (k' : ℕ) (h : createPuzzle σ d fuel k = some (p, s, k')) :
    numZeros s = 0 := by
  obtain ⟨hsol, hrl⟩ := createPuzzle_run σ d fuel k p s k' h
  have hres : ∃ lo hi, difficultyMap
      (if (difficultyMap d).isSome then d else "medium") = some (lo, hi) := by
    by_cases hd : (difficultyMap d).isSome
    · rw [if_pos hd]
      obtain ⟨x, hx⟩ := Option.isSome_iff_exists.mp hd
      obtain ⟨lo, hi⟩ := x
      exact ⟨lo, hi, hx⟩
    · rw [if_neg hd]
      exact ⟨45, 50, by decide⟩
  obtain ⟨lo, hi, hmap⟩ := hres
  obtain ⟨h35, hlohi, h60⟩ := difficultyMap_bounds hmap
  rw [hmap] at hrl
  simp only [Option.getD_some] at hrl
  have hmod : σ k % (hi - lo + 1) ≤ hi - lo := by
    have := Nat.mod_lt (σ k) (y := hi - lo + 1) (by omega)
    omega
  simp only [generate_eq σ (k + 1)] at hsol hrl
  have hin3 : InBounds (fillBox σ (fillBox σ (fillBox σ emptyGrid 0 0 (k + 1)).1 3 3
      (k + 1 + 8)).1 6 6 (k + 1 + 8 + 8)).1 :=
    InBounds_fillBox _ _ _ _ _ (InBounds_fillBox _ _ _ _ _
      (InBounds_fillBox _ _ _ _ _ InBounds_emptyGrid))
  obtain ⟨res, hsolve⟩ := Option.isSome_iff_exists.mp
    (solveFuel82_isSome σ _ (k + 1 + 8 + 8 + 8) hin3)
  obtain ⟨b, g4, k4⟩ := res
  have hsg : solveGrid σ (fillBox σ (fillBox σ (fillBox σ emptyGrid 0 0 (k + 1)).1 3 3
      (k + 1 + 8)).1 6 6 (k + 1 + 8 + 8)).1 (k + 1 + 8 + 8 + 8) = (b, g4, k4) := by
    simp only [solveGrid, hsolve]
  rw [hsg] at hsol hrl
  cases b with
  | true =>
    rw [hsol]
    exact findEmpty_none_numZeros g4 (solveFuel_true_complete σ 82 _ _ g4 k4 hsolve)
  | false =>
    exfalso
    have hg4 := solveFuel_false_eq σ 82 _ _ g4 k4 hsolve
    have hz3 : 54 ≤ numZeros g4 := by
      rw [hg4]
      have e0 : numZeros emptyGrid = 81 := by decide
      have h1 := numZeros_fillBox_ge σ emptyGrid 0 0 (k + 1)
      have h2 := numZeros_fillBox_ge σ (fillBox σ emptyGrid 0 0 (k + 1)).1 3 3 (k + 1 + 8)
      have h3 := numZeros_fillBox_ge σ
        (fillBox σ (fillBox σ emptyGrid 0 0 (k + 1)).1 3 3 (k + 1 + 8)).1 6 6 (k + 1 + 8 + 8)
      omega
    have hfin := removeLoop_exit_exact σ (numZeros g4) fuel g4 0
      (lo + σ k % (hi - lo + 1)) k4 p k' hrl (by omega) (by omega) (by omega)
    have hle := numZeros_le p
    omega

/-- Claim C6: every successful `create_puzzle` call at a recognized
difficulty returns a puzzle whose number of empty cells lies in the
difficulty's configured `[min_remove, max_remove]` range.  (In fact the loop always hits the drawn target exactly: `attempts`
is incremented only together with `removed`, so the attempt budget of 100
can never be exhausted short of the target and no best-effort/underrun case
is reachable.) -/
theorem createPuzzle_zero_count (σ : Rng) (d : String) (lo hi fuel k : ℕ)
    (p s : Grid) (k' : ℕ) (hd : difficultyMap d = some (lo, hi))
    (h : createPuzzle σ d fuel k = some (p, s, k')) :
    lo ≤ numZeros p ∧ numZeros p ≤ hi := by
  have hs : numZeros s = 0 := createPuzzle_solution_complete σ d fuel k p s k' h
  obtain ⟨h35, hlohi, h60⟩ := difficultyMap_bounds hd
  obtain ⟨hsol, hrl⟩ := createPuzzle_run σ d fuel k p s k' h
  rw [hd] at hrl
  simp only [Option.isSome_some, if_true, hd, Option.getD_some] at hrl
  have hmod : σ k % (hi - lo + 1) ≤ hi - lo := by
    have := Nat.mod_lt (σ k) (y := hi - lo + 1) (by omega)
    omega
  have := removeLoop_exit_exact σ 0 fuel _ 0 (lo + σ k % (hi - lo + 1)) _ p k' hrl
    (by rw [← hsol]; omega) (by omega) (by omega)
  omega

/-- Claim C7: clue fidelity.  Every `(puzzle, solution)` pair produced by
`create_puzzle` satisfies: each non-zero puzzle cell equals the
corresponding solution cell — the removal loop only ever clears cells of a
copy of the solution. -/
theorem createPuzzle_clue_fidelity (σ : Rng) (d : String) (fuel k : ℕ)
    (p s : Grid) (k' : ℕ) (h : createPuzzle σ d fuel k = some (p, s, k')) :
    ∀ r c, getCell p r c ≠ 0 → getCell p r c = getCell s r c := by
  obtain ⟨hsol, hrl⟩ := createPuzzle_run σ d fuel k p s k' h
  intro r c hne
  rw [hsol]
  have hq : ∀ r c, getCell ((generateCompleteGrid σ (k + 1)).1) r c = 0 ∨
      getCell ((generateCompleteGrid σ (k + 1)).1) r c
        = getCell ((generateCompleteGrid σ (k + 1)).1) r c :=
    fun _ _ => Or.inr rfl
  have hpres := removeLoop_preserve σ ((generateCompleteGrid σ (k + 1)).1) fuel
    ((generateCompleteGrid σ (k + 1)).1) 0 0 _ _ p k' hrl hq r c
  rcases hpres with h0 | heq
  · exact absurd h0 hne
  · exact heq

/-- Claim C8 (amended): generation is deterministic in the consumed segment of
the global random stream.  If a call that starts at cursor `k` returns
`(puzzle, solution)` with final cursor `k'`, then any stream agreeing with the
original on every index below `k'` produces the byte-identical result.  (The
randomness is the shared module-global stream: `create_puzzle` takes no
RNG/seed parameter, so a second call continues at cursor `k'` instead of
starting afresh — see the counterexample.) -/
theorem c8_determinism_amended (σ σ' : Rng) (d : String) (fuel k : ℕ)
    (p s : Grid) (k' : ℕ) (h : createPuzzle σ d fuel k = some (p, s, k'))
    (hagree : ∀ m < k', σ' m = σ m) :
    createPuzzle σ' d fuel k = some (p, s, k') := by
  simp only [createPuzzle, randint, Option.map_eq_some'] at h ⊢
  obtain ⟨⟨p0, k3⟩, hrl, heq⟩ := h
  simp only [Prod.mk.injEq] at heq
  obtain ⟨rfl, rfl, rfl⟩ := heq
  have hk2 : k + 1 ≤ (generateCompleteGrid σ (k + 1)).2 := generate_k_le σ (k + 1)
  have hk3 : (generateCompleteGrid σ (k + 1)).2 ≤ k3 :=
    removeLoop_k_le σ fuel _ _ _ _ _ _ hrl
  have hgen : generateCompleteGrid σ' (k + 1) = generateCompleteGrid σ (k + 1) :=
    generate_agree σ σ' (k + 1) fun m hm => hagree m (by omega)
  have ha0 : σ' k = σ k := hagree k (by omega)
  have hrl' : removeLoop σ' fuel (generateCompleteGrid σ (k + 1)).1 0 0
      (((difficultyMap (if (difficultyMap d).isSome then d else "medium")).getD (0, 0)).1
        + σ k % (((difficultyMap (if (difficultyMap d).isSome then d
            else "medium")).getD (0, 0)).2
          - ((difficultyMap (if (difficultyMap d).isSome then d
            else "medium")).getD (0, 0)).1 + 1))
      (generateCompleteGrid σ (k + 1)).2 = some (p0, k3) :=
    removeLoop_agree σ σ' fuel _ _ _ _ _ _ hrl fun m hm => hagree m hm
  refine ⟨(p0, k3), ?_, ?_⟩
  · rw [hgen, ha0]
    exact hrl'
  · rw [hgen]

/-! ### The concrete `sigma3` run and non-terminating streams -/

set_option maxRecDepth 10000 in
theorem sigma3List_length : sigma3List.length = 547 := by decide

set_option maxRecDepth 10000 in
/-- The fully computed run: under the explicit stream `sigma3`,
`create_puzzle('medium')` draws target 45, builds `gridG`, removes the 45
cells of `removalDraws` (every removal accepted by the stubbed uniqueness
check) and returns `(puzzleP, gridG)` with final cursor 547. -/
theorem genRun_medium : createPuzzle sigma3 "medium" 100 0
    = some (puzzleP, gridG, 547) := by decide

/-- Claim C9 (counterexample): under the all-zero random stream, a
`create_puzzle('easy')` call never terminates — after the first removal the
loop keeps drawing the already-cleared cell (0,0), never incrementing
`removed` or `attempts`, so no fuel bound suffices. -/
theorem c9_nontermination_cex : ¬ ∃ (fuel : ℕ) (res : Grid × Grid × ℕ),
    createPuzzle sigma0 "easy" fuel 0 = some res := by
  rintro ⟨fuel, res, h⟩
  have hd : difficultyMap "easy" = some (35, 40) := by decide
  simp [createPuzzle, randint, hd] at h
  rw [removeLoop_entry_stuck sigma0 0 (fun m _ => rfl) fuel
    ((generateCompleteGrid sigma0 (0 + 1)).1) 0 0
    (35 + sigma0 0 % (40 - 35 + 1)) ((generateCompleteGrid sigma0 (0 + 1)).2)
    (Nat.zero_le _) (by omega) (by omega)] at h
  simp at h

/-- Claim C8 (counterexample): the randomness is shared global state.  With
the stream seeded once, the first generation call returns a puzzle and leaves
the stream cursor at 547; a second, identical call continuing from that
shared cursor does not reproduce the pair (here it does not even
terminate), unlike calls on an instance-scoped generator reseeded per call. -/
theorem c8_global_stream_cex :
    createPuzzle sigma3 "medium" 100 0 = some (puzzleP, gridG, 547) ∧
    createPuzzle sigma3 "medium" 100 547 = none := by
  refine ⟨genRun_medium, ?_⟩
  have hd : difficultyMap "medium" = some (45, 50) := by decide
  have hz : ∀ m, 547 ≤ m → sigma3 m = 0 := by
    intro m hm
    unfold sigma3
    exact List.getD_eq_default _ _ (by rw [sigma3List_length]; exact hm)
  have hK : 547 ≤ (generateCompleteGrid sigma3 (547 + 1)).2 := by
    have := generate_k_le sigma3 (547 + 1)
    omega
  simp [createPuzzle, randint, hd]
  rw [removeLoop_entry_stuck sigma3 547 hz 100
    ((generateCompleteGrid sigma3 (547 + 1)).1) 0 0
    (45 + sigma3 547 % (50 - 45 + 1)) ((generateCompleteGrid sigma3 (547 + 1)).2)
    hK (by omega) (by omega)]

/-! ### The validator: what `len(set(...)) == 9` actually checks -/

theorem dedup_nine_iff (l : List ℕ) (h : l.length = 9) :
    l.dedup.length = 9 ↔ l.Nodup := by
  constructor
  · intro h9
    have hsub := List.dedup_sublist l
    have heq := List.Sublist.eq_of_length hsub (by omega)
    rw [← heq]
    exact List.nodup_dedup l
  · intro hnd
    rw [List.dedup_eq_self.mpr hnd, h]

theorem colVals_length (s : Grid) (i : ℕ) : (colVals s i).length = 9 := by
  simp [colVals, gridSize]

theorem boxVals_length (s : Grid) (br bc : ℕ) : (boxVals s br bc).length = 9 := rfl

/-- Claim C4 (amended): `validate_solution` returns true iff every non-zero
cell of the puzzle matches the candidate and every row, column and 3×3 box
of the candidate consists of nine pairwise-distinct values.  No check that
the values lie in `{1..9}` is performed (see the counterexample). -/
theorem c4_validator_amended (p s : Grid)
    (hrows : ∀ i < gridSize, (s.getD i []).length = gridSize) :
    validateSolution p s = true ↔ CluesMatch p s ∧ AllUnitsDistinct s := by
  unfold validateSolution CluesMatch AllUnitsDistinct
  simp only [gridSize] at hrows ⊢
  simp only [Bool.and_eq_true, List.all_eq_true, List.mem_range, beq_iff_eq,
    Bool.not_eq_true', Bool.and_eq_false_iff, bne_eq_false_iff_eq]
  constructor
  · rintro ⟨⟨hA, hB⟩, hC⟩
    refine ⟨fun i hi j hj hne => ?_, fun i hi => ?_, fun br hbr bc hbc => ?_⟩
    · rcases hA i hi j hj with h0 | hcopy
      · exact absurd h0 hne
      · exact hcopy
    · obtain ⟨h1, h2⟩ := hB i hi
      exact ⟨(dedup_nine_iff _ (hrows i hi)).mp h1,
        (dedup_nine_iff _ (colVals_length s i)).mp h2⟩
    · exact (dedup_nine_iff _ (boxVals_length s br bc)).mp (hC br hbr bc hbc)
  · rintro ⟨hA, hB, hC⟩
    refine ⟨⟨fun i hi j hj => ?_, fun i hi => ?_⟩, fun br hbr bc hbc => ?_⟩
    · by_cases h0 : getCell p i j = 0
      · exact Or.inl h0
      · exact Or.inr (hA i hi j hj h0)
    · obtain ⟨h1, h2⟩ := hB i hi
      exact ⟨(dedup_nine_iff _ (hrows i hi)).mpr h1,
        (dedup_nine_iff _ (colVals_length s i)).mpr h2⟩
    · exact (dedup_nine_iff _ (boxVals_length s br bc)).mpr (hC br hbr bc hbc)

/-! ### Claim theorems and witnesses on the concrete data -/

/-- Claim C1 (code bug): `create_puzzle` can return a puzzle with more than
one completion, because `_has_unique_solution` is a stub.  Under the explicit
stream `sigma3`, the `'medium'` call returns `puzzleP`, and both `gridG` and
the different grid `gridG2` are valid completions of `puzzleP` — so
"every generated puzzle admits exactly one completion" fails on the code. -/
theorem c1_uniqueness_violated :
    createPuzzle sigma3 "medium" 100 0 = some (puzzleP, gridG, 547) ∧
    IsCompletionOf puzzleP gridG ∧ IsCompletionOf puzzleP gridG2 ∧ gridG ≠ gridG2 :=
  ⟨genRun_medium, by decide, by decide, by decide⟩

/-- Claim C2 (code bug): the solution-counting subroutine of the source,
`_has_unique_solution`, reports uniqueness (`True`) for the empty grid, even
though the empty grid has at least two distinct completions; a counter
honouring the `min(actual, cap)` contract would return 2 at cap 2. -/
theorem c2_counting_stub :
    hasUniqueSolution emptyGrid = true ∧
    IsCompletionOf emptyGrid gridG ∧ IsCompletionOf emptyGrid gridG2 ∧ gridG ≠ gridG2 :=
  ⟨rfl, by decide, by decide, by decide⟩

/-- Claim C3 (code bug): an unrecognized difficulty token is not rejected:
`create_puzzle('invalid')` behaves exactly like `create_puzzle('medium')`
and returns a normal puzzle, while the repository's own test suite expects
invalid difficulties to be rejected. -/
theorem c3_difficulty_coerced :
    createPuzzle sigma3 "invalid" 100 0 = createPuzzle sigma3 "medium" 100 0 ∧
    createPuzzle sigma3 "invalid" 100 0 = some (puzzleP, gridG, 547) := by
  have hco := createPuzzle_coerce sigma3 "invalid" 100 0 (by decide)
  exact ⟨hco, hco.trans genRun_medium⟩

/-- Claim C4 (counterexample): `validate_solution` is not equivalent to
"clues match and every unit is a permutation of {1..9}": on the all-zero
puzzle it accepts `bigGrid` (a valid grid shifted by +9), whose rows are
not permutations of `{1..9}`. -/
theorem c4_range_check_missing_cex :
    ¬(validateSolution emptyGrid bigGrid = true ↔
        CluesMatch emptyGrid bigGrid ∧ IsSudokuSolution bigGrid) := by decide

/-- Witness for the amended claim C4 at a concrete input. -/
theorem c4_validator_amended_witness :
    (∀ i < gridSize, ((gridG : Grid).getD i []).length = gridSize) ∧
    (validateSolution puzzleP gridG = true ↔
      CluesMatch puzzleP gridG ∧ AllUnitsDistinct gridG) :=
  ⟨by decide, c4_validator_amended puzzleP gridG (by decide)⟩

/-- Witness for claim C6 at the concrete `sigma3` run. -/
theorem c6_removal_range_witness :
    difficultyMap "medium" = some (45, 50) ∧
    createPuzzle sigma3 "medium" 100 0 = some (puzzleP, gridG, 547) ∧
    (45 ≤ numZeros puzzleP ∧ numZeros puzzleP ≤ 50) :=
  ⟨by decide, genRun_medium,
    createPuzzle_zero_count sigma3 "medium" 45 50 100 0 puzzleP gridG 547
      (by decide) genRun_medium⟩

/-- Witness for claim C7 at the concrete `sigma3` run. -/
theorem c7_clue_fidelity_witness :
    createPuzzle sigma3 "medium" 100 0 = some (puzzleP, gridG, 547) ∧
    ∀ r c, getCell puzzleP r c ≠ 0 → getCell puzzleP r c = getCell gridG r c :=
  ⟨genRun_medium,
    createPuzzle_clue_fidelity sigma3 "medium" 100 0 puzzleP gridG 547 genRun_medium⟩

/-- Witness for the amended claim C8: a stream differing from `sigma3` only
beyond the consumed prefix produces the byte-identical pair. -/
theorem c8_determinism_amended_witness :
    (∀ m < 547, sigma3alt m = sigma3 m) ∧
    createPuzzle sigma3alt "medium" 100 0 = some (puzzleP, gridG, 547) := by
  have hag : ∀ m < 547, sigma3alt m = sigma3 m := by
    intro m hm
    unfold sigma3alt sigma3
    exact getD_irrel sigma3List m 99 0 (by rw [sigma3List_length]; exact hm)
  exact ⟨hag, c8_determinism_amended sigma3 sigma3alt "medium" 100 0 puzzleP gridG 547
    genRun_medium hag⟩

/-- Claim C9 (amended): the backtracking recursion of `_solve_grid`
terminates on every in-bounds 9×9 grid: its depth is bounded by the number
of empty cells (at most 81), so fuel 82 always suffices. -/
theorem c9_solver_terminates (σ : Rng) (g : Grid) (k : ℕ) (h : InBounds g) :
    (solveFuel σ 82 g k).isSome :=
  solveFuel82_isSome σ g k h

/-- Witness for the amended claim C9 at a concrete grid. -/
theorem c9_solver_terminates_witness :
    InBounds gridG ∧ (solveFuel sigma0 82 gridG 0).isSome :=
  ⟨by decide, c9_solver_terminates sigma0 gridG 0 (by decide)⟩

/-- Claim C10: `validate_solution` accepts a candidate none of whose values
lie in `{1..9}` — the all-zero puzzle together with `bigGrid` (each cell of
a valid solution shifted by 9) passes validation, since only pairwise
distinctness per row/column/box is checked, never a per-cell range. -/
theorem c10_out_of_range_accepted :
    validateSolution emptyGrid bigGrid = true ∧
    ∀ r < gridSize, ∀ c < gridSize,
      ¬(1 ≤ getCell bigGrid r c ∧ getCell bigGrid r c ≤ 9) := by decide

end Sudoku
